import Mathlib

/-!
Verification of the nextcloud-bot parsing / persistence core.

Shallow embedding of the content parser, the CouchDB persistence layer and
the vector-index synchronisation of the repository (files
`src/lib/nextcloud/models/{base,group,protocol,decision,collective_page}.py`
and `src/lib/nextcloud/config.py`), together with proofs about the claims
of the specification.

Python strings are modelled as Lean `String`s, with the operations used by
the code re-implemented over `String.data` (`List Char`) so that all
definitions compute.  Python's `re` patterns used by the code
(`\b(\w[\w-]*)\b`, `mention://user/([A-Za-z0-9_.-]+)`,
`^<kw>[:\s\-]*`, `::: success(.*?):::`) are modelled character by
character; `\w` is modelled as ASCII alphanumeric or underscore, and
case folding as ASCII case folding (the configured keywords are ASCII
apart from fixed lower-case umlauts, which are unaffected).
-/

namespace NcBot

/-! ## Python string helpers -/

/-- ASCII whitespace, as stripped by Python `str.strip()` / `str.split()`. -/
def pyWs (c : Char) : Bool :=
  c == ' ' || c == '\t' || c == '\n' || c == '\r' || c == '\x0b' || c == '\x0c'

/-- `str.strip()` on a character list. -/
def stripChars (l : List Char) : List Char :=
  ((l.dropWhile pyWs).reverse.dropWhile pyWs).reverse

/-- Python `s.strip()`. -/
def pyStrip (s : String) : String := String.mk (stripChars s.data)

/-- Python `s.strip(cs)` for an explicit set of characters. -/
def pyStripSet (cs : List Char) (s : String) : String :=
  String.mk (((s.data.dropWhile (cs.contains ·)).reverse.dropWhile (cs.contains ·)).reverse)

/-- Split a character list at every occurrence of the separator character
(Python `s.split(sep)`, keeping empty parts). -/
def splitOnChar (sep : Char) : List Char → List (List Char)
  | [] => [[]]
  | c :: rest =>
    let r := splitOnChar sep rest
    if c == sep then [] :: r
    else
      match r with
      | [] => [[c]]
      | p :: ps => (c :: p) :: ps

/-- Python `s.split(sep)` with a one-character separator. -/
def pySplit (sep : Char) (s : String) : List String :=
  (splitOnChar sep s.data).map String.mk

/-- Python `s.split()`: split on whitespace runs, dropping empty parts
(`cur` is the token currently being read, reversed). -/
def pySplitWsAux (cur : List Char) : List Char → List String
  | [] => if cur = [] then [] else [String.mk cur.reverse]
  | c :: rest =>
    if pyWs c then
      if cur = [] then pySplitWsAux [] rest
      else String.mk cur.reverse :: pySplitWsAux [] rest
    else pySplitWsAux (c :: cur) rest

def pySplitWs (s : String) : List String := pySplitWsAux [] s.data

/-- Python `s.splitlines()`: split on `\n`, `\r\n` or `\r`, no trailing
empty line for a trailing terminator. -/
def pySplitlinesAux (cur : List Char) : List Char → List (List Char)
  | [] => [cur.reverse]
  | '\r' :: '\n' :: rest => cur.reverse :: pySplitlinesAux [] rest
  | '\r' :: rest => cur.reverse :: pySplitlinesAux [] rest
  | '\n' :: rest => cur.reverse :: pySplitlinesAux [] rest
  | c :: rest => pySplitlinesAux (c :: cur) rest

def pySplitlines (s : String) : List String :=
  match s.data with
  | [] => []
  | l =>
    let parts := pySplitlinesAux [] l
    -- a trailing line terminator does not produce a final empty line
    (if parts.getLastD [] = [] then parts.dropLast else parts).map String.mk

/-- Python `s.lower()` (ASCII folding). -/
def pyLower (s : String) : String := String.mk (s.data.map Char.toLower)

/-- Python `s.upper()` (ASCII folding). -/
def pyUpper (s : String) : String := String.mk (s.data.map Char.toUpper)

/-- `sub in s` for character lists: `sub` occurs contiguously in `s`. -/
def containsSeq (pat : List Char) : List Char → Bool
  | [] => pat.isEmpty
  | c :: rest => pat.isPrefixOf (c :: rest) || containsSeq pat rest

/-- Python `sub in s` (substring containment). -/
def pyIn (sub s : String) : Bool := containsSeq sub.data s.data

/-- Python `s.startswith(p)`. -/
def pyStartsWith (p s : String) : Bool := p.data.isPrefixOf s.data

/-- Python `s.replace(pat, "")` for the two-character patterns used by
`clean_line` (`"**"` and `"__"`): delete all leftmost non-overlapping
occurrences. -/
def pyDelete2 (a b : Char) : List Char → List Char
  | [] => []
  | [c] => [c]
  | c :: d :: rest =>
    if c = a ∧ d = b then pyDelete2 a b rest
    else c :: pyDelete2 a b (d :: rest)

def pyDelete (a b : Char) (s : String) : String := String.mk (pyDelete2 a b s.data)

/-- Python string `<` (lexicographic on code points). -/
def lexLt : List Char → List Char → Bool
  | [], [] => false
  | [], _ :: _ => true
  | _ :: _, [] => false
  | a :: as, b :: bs =>
    if a.val < b.val then true
    else if b.val < a.val then false
    else lexLt as bs

def strLtB (a b : String) : Bool := lexLt a.data b.data

/-- Stable insertion used by `pySort`: `x` is placed after every earlier
element that is strictly smaller, and before the first element that is not,
which is exactly the order produced by Python's stable `sorted`. -/
def pyInsert (x : String) : List String → List String
  | [] => [x]
  | y :: ys => if strLtB y x then y :: pyInsert x ys else x :: y :: ys

/-- Python `sorted(l)` for strings. -/
def pySort (l : List String) : List String := l.foldr pyInsert []

/-- Python `sorted(set(l))` for strings: the unique ascending
duplicate-free enumeration of the elements of `l`. -/
def pySortedSet (l : List String) : List String := pySort l.dedup

/-- Python `sorted(set(a) - set(b) - set(c))`. -/
def pySortedSetDiff (a b c : List String) : List String :=
  pySort ((a.dedup).filter (fun x => !b.contains x && !c.contains x))

/-! ## Regex models

The scanners use `re.compile(r"\b(\w[\w-]*)\b").search(line)` to pick out
the first word of a line, and `re.findall(r"mention://user/([A-Za-z0-9_.-]+)",
line)` for identity mentions. -/

/-- Model of regex `\w` (ASCII). -/
def wordChar (c : Char) : Bool := c.isAlphanum || c == '_'

/-- First match of `\b(\w[\w-]*)\b`: the first word character starts the
token, it extends over word characters and hyphens, and the trailing `\b`
makes the engine back off over trailing hyphens. -/
def firstWordChars : List Char → Option (List Char)
  | [] => none
  | c :: rest =>
    if wordChar c then
      some ((c :: rest.takeWhile (fun d => wordChar d || d == '-')).reverse.dropWhile
        (· == '-')).reverse
    else firstWordChars rest

/-- `m.group(1).lower()` for the first-word regex. -/
def firstWordLower (line : String) : Option String :=
  (firstWordChars line.data).map (fun l => String.mk (l.map Char.toLower))

/-- Characters allowed in a mention identifier (`[A-Za-z0-9_.-]`). -/
def identChar (c : Char) : Bool := c.isAlphanum || c == '_' || c == '.' || c == '-'

def mentionMarker : List Char := "mention://user/".data

/-- `re.findall(user_regex, line)`: all (leftmost, non-overlapping)
mention identifiers on the line.  The fuel argument (initially the length
of the text, which strictly bounds the number of scanning steps) makes
the recursion structural. -/
def findMentionsAux : Nat → List Char → List String
  | 0, _ => []
  | _ + 1, [] => []
  | fuel + 1, c :: rest =>
    if mentionMarker.isPrefixOf (c :: rest) then
      -- the marker is 15 characters long, so the text after it is
      -- `(c :: rest).drop 15 = rest.drop 14`
      let ident := (rest.drop 14).takeWhile identChar
      if ident = [] then findMentionsAux fuel rest
      else String.mk ident :: findMentionsAux fuel (rest.drop (14 + ident.length))
    else findMentionsAux fuel rest

def findMentions (line : String) : List String :=
  findMentionsAux line.data.length line.data

/-- Case-insensitive `line.startswith(kw)` as used for the keyword-anchored
patterns `^<kw>[:\s\-]*` (`re.match`, `re.IGNORECASE`). -/
def ciStartsWith (kw s : String) : Bool :=
  (pyLower kw).data.isPrefixOf (pyLower s).data

/-- `re.sub(rf"^{kw}[:\s\-]*", "", s, flags=re.IGNORECASE)`: if the keyword
matches at the start, drop it together with the following run of colons,
whitespace and hyphens; otherwise leave the string unchanged. -/
def stripKwMatch (kw s : String) : String :=
  if ciStartsWith kw s then
    String.mk ((s.data.drop kw.data.length).dropWhile
      (fun c => c == ':' || c == '-' || pyWs c))
  else s

/-! ## Dates

`datetime.strptime(s, "%Y-%m-%d")` as used by `Protocol.valid_date` and
`Protocol.date_obj`: CPython's `_strptime` matches `%Y` as exactly four
digits and `%m`/`%d` as one or two digits in range, the two literal `-`
separators must be present, nothing may remain, and `datetime` validates
the day against the month (with leap years). -/

structure PyDate where
  year : Nat
  month : Nat
  day : Nat
deriving DecidableEq, Repr

def PyDate.ltB (a b : PyDate) : Bool :=
  a.year < b.year ||
    (a.year == b.year && (a.month < b.month ||
      (a.month == b.month && a.day < b.day)))

def isLeapYear (y : Nat) : Bool := (y % 4 == 0 && y % 100 != 0) || y % 400 == 0

def daysInMonth (y m : Nat) : Nat :=
  if m == 2 then (if isLeapYear y then 29 else 28)
  else if m == 4 || m == 6 || m == 9 || m == 11 then 30
  else 31

def allDigits (l : List Char) : Bool := l.all (·.isDigit)

def digitsToNat (l : List Char) : Nat :=
  l.foldl (fun acc c => acc * 10 + (c.toNat - '0'.toNat)) 0

/-- `datetime.strptime(s, "%Y-%m-%d").date()`, `none` when parsing fails. -/
def parseYmd (s : String) : Option PyDate :=
  match (splitOnChar '-' s.data) with
  | [y, m, d] =>
    if allDigits y && allDigits m && allDigits d &&
        y.length == 4 && (m.length == 1 || m.length == 2) &&
        (d.length == 1 || d.length == 2) then
      let ym := digitsToNat m
      let yd := digitsToNat d
      if 1 ≤ ym && ym ≤ 12 && 1 ≤ yd && yd ≤ daysInMonth (digitsToNat y) ym then
        some ⟨digitsToNat y, ym, yd⟩
      else none
    else none
  | _ => none

/-! ## Configuration

`OrganisationConfig` (src/lib/nextcloud/config.py, lines 18-82) with its
default keyword sets.  Two attributes are read by the parsers
(`group.py` line 143, `protocol.py` line 179) and exercised by the test
suite but are absent from the `OrganisationConfig` declaration in this
snapshot; they are modelled from the spec as configured values:

* `group_shortname_keywords` — Modelled from the spec: "the dedicated
  short-name keyword set" of the ContentParser (§4.1), missing from
  `OrganisationConfig`.
* `protocol_decision_example_title` — Modelled from the spec: the
  configured "example" sentinel used to filter template placeholder
  decisions (§4.3), missing from `OrganisationConfig`.
-/

structure Config where
  group_prefixes : List String := ["AG", "UG", "PG"]
  extra_groups : List String := []
  decision_title_keywords : List String :=
    ["entscheidung", "decision", "beschluss", "resolution"]
  decision_valid_until_keywords : List String :=
    ["gültig bis", "valid until", "befristet auf"]
  decision_objection_keywords : List String := ["einwände", "objections", "einwand"]
  protocol_person_keywords : List String :=
    ["protokollant", "protokollantin", "protokoll", "protokollant:in"]
  moderation_person_keywords : List String :=
    ["moderation", "moderator", "moderatorin", "moderator:in"]
  participant_person_keywords : List String :=
    ["teilnehmer", "teilnehmende", "teilnehmerin", "teilnehmerinnen"]
  coordination_person_keywords : List String :=
    ["koordination", "koordinator", "koordinatorin", "koordinator:in",
     "sprecher", "sprecherin", "sprecher:in"]
  delegate_person_keywords : List String := ["delegierter", "delegierte"]
  member_person_keywords : List String := ["mitglied", "mitglieder"]
  group_shortname_keywords : List String := ["kurznamen", "schlagwörter", "shortnames"]
  protocol_decision_example_title : String := "Beispiel Entscheidung"
deriving DecidableEq, Repr

/-- The default configuration (`OrganisationConfig()`), as used by the
unit tests. -/
def defaultConfig : Config := {}

/-- Python exceptions surfaced by the modelled code. -/
inductive PyErr
  | valueError
  | typeError
  | indexError
  | notFound
  | conflict
deriving DecidableEq, Repr

instance {ε α : Type} [DecidableEq ε] [DecidableEq α] : DecidableEq (Except ε α)
  | .ok a, .ok b =>
    if h : a = b then .isTrue (by rw [h]) else .isFalse (by intro hc; injection hc; contradiction)
  | .error a, .error b =>
    if h : a = b then .isTrue (by rw [h]) else .isFalse (by intro hc; injection hc; contradiction)
  | .ok _, .error _ => .isFalse (by intro hc; injection hc)
  | .error _, .ok _ => .isFalse (by intro hc; injection hc)

/-! ## Group (src/lib/nextcloud/models/group.py) -/

/-- The domain fields of `Group` (persistence bookkeeping `id`/`rev`/
`updated_at` of `CouchDBModel` is modelled separately with the save
protocol). -/
structure Group0 where
  name : String := ""
  page_id : Int
  parent_group : Option String := none
  emoji : String := ""
  coordination : List String := []
  delegate : List String := []
  members : List String := []
  short_names : List String := []
deriving DecidableEq, Repr

/-- `sorted(set(self.coordination + self.delegate + self.members))`
(group.py lines 42-45). -/
def Group0.all_members (g : Group0) : List String :=
  pySortedSet (g.coordination ++ g.delegate ++ g.members)

/-- The loop state of `Group.update_from_page`: the string-keyed `attr`
("current role") and the role lists being accumulated. -/
structure GroupScan where
  attr : String
  coordination : List String
  delegate : List String
  members : List String
  short_names : List String
deriving DecidableEq, Repr

/-- `users_list = getattr(self, attr); users_list.extend(users);
setattr(self, attr, sorted(users_list))`. -/
def roleAppend (st : GroupScan) (users : List String) : GroupScan :=
  if st.attr = "coordination" then
    { st with coordination := pySort (st.coordination ++ users) }
  else if st.attr = "delegate" then
    { st with delegate := pySort (st.delegate ++ users) }
  else if st.attr = "members" then
    { st with members := pySort (st.members ++ users) }
  else st

/-- The mention-harvest / reset block at the end of the group loop body
(group.py lines 152-162), applied after the keyword chain updated `attr`. -/
def groupMentionBlock (cfg : Config) (st : GroupScan) (line : String)
    (fw : String) : GroupScan :=
  let users := findMentions line
  if users ≠ [] ∧ st.attr ≠ "" then roleAppend st users
  else if pyStrip line ≠ "" ∧
      fw ∉ (cfg.coordination_person_keywords ++ cfg.delegate_person_keywords ++
        cfg.member_person_keywords) then
    { st with attr := "" }
  else st

/-- `shortnames = line.split(":")[-1].strip("*").strip().split(",")`
followed by the strip/lower/non-empty comprehension (group.py 145-148). -/
def shortnamesOfLine (line : String) : List String :=
  let part := (pySplit ':' line).getLastD ""
  let s := pyStrip (pyStripSet ['*'] part)
  ((pySplit ',' s).filter (fun sn => pyStrip sn ≠ "")).map (fun sn => pyLower (pyStrip sn))

/-- One iteration of the `for line in lines` loop of
`Group.update_from_page` (group.py lines 130-162). -/
def groupLineStep (cfg : Config) (st : GroupScan) (line : String) : GroupScan :=
  match firstWordLower line with
  | none => st
  | some fw =>
    if fw ∈ cfg.coordination_person_keywords then
      groupMentionBlock cfg { st with attr := "coordination" } line fw
    else if fw ∈ cfg.delegate_person_keywords then
      groupMentionBlock cfg { st with attr := "delegate" } line fw
    else if fw ∈ cfg.member_person_keywords then
      groupMentionBlock cfg { st with attr := "members" } line fw
    else if fw ∈ cfg.group_shortname_keywords then
      { st with short_names := st.short_names ++ pySort (shortnamesOfLine line) }
    else groupMentionBlock cfg st line fw

def groupScan (cfg : Config) (lines : List String) (st : GroupScan) : GroupScan :=
  lines.foldl (groupLineStep cfg) st

/-- `Group.valid_name` (group.py lines 81-91). -/
def validName (cfg : Config) (name : String) : Bool :=
  let uname := pyUpper name
  cfg.group_prefixes.any (fun p => pyStartsWith p uname) ||
    cfg.extra_groups.contains uname

/-- `Group.valid_group_names` (group.py lines 93-97): path segments,
nearest-first, that are valid group names. -/
def validGroupNames (cfg : Config) (filePath : String) : List String :=
  ((pySplit '/' filePath).reverse).filter (validName cfg)

/-- The page data consumed by `Group.update_from_page`. -/
structure GPage where
  full_path : String
  content : Option String
  emoji : Option String
deriving DecidableEq, Repr

/-- `Group.update_from_page` (group.py lines 107-168), up to the final
`self.save()` (the persisted document carries exactly these fields). -/
def groupUpdateFromPage (cfg : Config) (page : GPage) (g : Group0) :
    Except PyErr Group0 :=
  match page.content with
  | none => .error .valueError
  | some content =>
    if content = "" then .error .valueError
    else
      let group_names := validGroupNames cfg page.full_path
      let parent := match group_names with
        | _ :: p :: _ => some p
        | _ => g.parent_group
      match group_names with
      | [] => .error .valueError
      | name0 :: _ =>
        let st := groupScan cfg (pySplitlines content)
          { attr := "", coordination := [], delegate := [], members := [],
            short_names := g.short_names }
        .ok { g with
          name := name0
          parent_group := parent
          emoji := (page.emoji).getD ""
          coordination := st.coordination
          delegate := st.delegate
          members := pySortedSetDiff st.members st.coordination st.delegate
          short_names := st.short_names }

/-! ## Protocol scanning (src/lib/nextcloud/models/protocol.py) -/

/-- The domain fields of `Protocol`. -/
structure Protocol0 where
  group_id : Option String := none
  page_id : Int
  date : String
  moderated_by : List String := []
  protocol_by : List String := []
  participants : List String := []
  summary_posted : Bool := false
  ai_summary : String := ""
deriving DecidableEq, Repr

structure ProtScan where
  attr : String
  moderated_by : List String
  protocol_by : List String
  participants : List String
deriving DecidableEq, Repr

def protRoleAppend (st : ProtScan) (users : List String) : ProtScan :=
  if st.attr = "moderated_by" then
    { st with moderated_by := pySort (st.moderated_by ++ users) }
  else if st.attr = "protocol_by" then
    { st with protocol_by := pySort (st.protocol_by ++ users) }
  else if st.attr = "participants" then
    { st with participants := pySort (st.participants ++ users) }
  else st

/-- One iteration of the line loop of `Protocol.update_from_page`
(protocol.py lines 417-441), for a line that did not `break`. -/
def protLineStep (cfg : Config) (st : ProtScan) (line : String) : ProtScan :=
  match firstWordLower line with
  | none => st
  | some fw =>
    let st1 :=
      if fw ∈ cfg.moderation_person_keywords then { st with attr := "moderated_by" }
      else if fw ∈ cfg.protocol_person_keywords then { st with attr := "protocol_by" }
      else if fw ∈ cfg.participant_person_keywords then { st with attr := "participants" }
      else st
    let users := findMentions line
    if users ≠ [] ∧ st1.attr ≠ "" then protRoleAppend st1 users
    else if pyStrip line ≠ "" ∧
        fw ∉ (cfg.moderation_person_keywords ++ cfg.protocol_person_keywords ++
          cfg.participant_person_keywords) then
      { st1 with attr := "" }
    else st1

/-- `line.strip() == "---" or line.strip().startswith("#")`
(protocol.py line 415): scanning terminates. -/
def protBreakLine (line : String) : Bool :=
  pyStrip line == "---" || pyStartsWith "#" (pyStrip line)

def protScanLines (cfg : Config) : ProtScan → List String → ProtScan
  | st, [] => st
  | st, line :: rest =>
    if protBreakLine line then st
    else protScanLines cfg (protLineStep cfg st line) rest

/-- `Protocol.valid_date` (protocol.py lines 75-87). -/
def validDate (title : String) : Bool :=
  if !pyIn " " title then false
  else (parseYmd ((pySplit ' ' title).headD "")).isSome

/-- `Protocol.date_obj` (protocol.py lines 57-61):
`datetime.strptime(self.date.split()[0], "%Y-%m-%d")`, which raises on
an empty split or an unparsable first token. -/
def dateObjE (p : Protocol0) : Except PyErr (Option PyDate) :=
  if p.date = "" then .ok none
  else
    match pySplitWs p.date with
    | [] => .error .indexError
    | w :: _ =>
      match parseYmd w with
      | some d => .ok (some d)
      | none => .error .valueError

/-- The page data consumed by `Protocol.update_from_page` and
`Protocol.extract_decisions`. -/
structure PPage where
  title : String
  content : Option String
deriving DecidableEq, Repr

/-- The field-parsing part of `Protocol.update_from_page` (protocol.py
lines 387-445): date from the title, group resolution (the two database
lookups of lines 395-404 are abstracted into `resolvedGroupId`, `none`
when both fail and the old value is kept), the role-line scan and the
participant de-duplication. -/
def protocolUpdateFields (cfg : Config) (page : PPage)
    (resolvedGroupId : Option String) (p : Protocol0) : Except PyErr Protocol0 :=
  match page.content with
  | none => .error .valueError
  | some content =>
    if content = "" then .error .valueError
    else
      let date := if validDate page.title then (pySplit ' ' page.title).headD "" else p.date
      let group_id := match resolvedGroupId with
        | some gid => some gid
        | none => p.group_id
      let st := protScanLines cfg
        { attr := "", moderated_by := [], protocol_by := [], participants := [] }
        (pySplitlines content)
      .ok { p with
        date := date
        group_id := group_id
        moderated_by := st.moderated_by
        protocol_by := st.protocol_by
        participants := pySortedSetDiff st.participants st.moderated_by st.protocol_by }

/-! ## Decisions (src/lib/nextcloud/models/decision.py and
`Protocol.extract_decisions` / `Protocol.save_decision`) -/

/-- The domain fields of `Decision`. -/
structure Decision0 where
  title : String := ""
  text : String := ""
  date : String
  page_id : Option Int := none
  group_id : String := ""
  group_name : String := ""
  valid_until : String := ""
  objections : String := ""
  external_link : String := ""
deriving DecidableEq, Repr

def pageIdStr : Option Int → String
  | none => "None"
  | some n => toString n

/-- `Decision.build_id` (decision.py lines 46-49): raises `ValueError`
when both title and text are empty. -/
def Decision0.buildIdE (d : Decision0) : Except PyErr String :=
  if d.title = "" ∧ d.text = "" then .error .valueError
  else
    .ok ("Decision:" ++ pageIdStr d.page_id ++ ":" ++
      (if d.title ≠ "" then String.mk (d.title.data.take 20)
       else String.mk (d.text.data.take 20)))

/-- The stored decision documents, keyed by document id.  (The parallel
ChromaDB upsert/delete of decision embeddings mirrors the document-store
writes one-to-one and is not modelled separately; the revision-conflict
mechanics of `CouchDBModel.save` is modelled on its own below.) -/
abbrev DecisionStore := List (String × Decision0)

def storeUpsert (id : String) (d : Decision0) (st : DecisionStore) : DecisionStore :=
  if st.any (fun kv => kv.1 == id) then
    st.map (fun kv => if kv.1 == id then (id, d) else kv)
  else st ++ [(id, d)]

def storeDelete (id : String) (st : DecisionStore) : DecisionStore :=
  st.filter (fun kv => kv.1 ≠ id)

/-- `clean_line` (protocol.py lines 155-164). -/
def cleanLine (line : String) : String :=
  pyStrip (pyStripSet ['\r'] (pyStripSet ['\n'] (pyStripSet ['_'] (pyStripSet ['*']
    (pyDelete '_' '_' (pyDelete '*' '*' line))))))

/-- The title-keyword stripping loop (protocol.py lines 171-176). -/
def applyTitleKws (cfg : Config) (t : String) : String :=
  cfg.decision_title_keywords.foldl
    (fun t kw => pyStrip (pyStripSet [':'] (stripKwMatch kw t))) t

/-- The `valid_until` keyword loop of `save_decision` (protocol.py lines
197-204); the pair carries (decision, current line). -/
def applyValidUntilKws (cfg : Config) (d : Decision0) (line : String) :
    Decision0 × String :=
  cfg.decision_valid_until_keywords.foldl
    (fun acc kw =>
      if ciStartsWith kw acc.2 then
        ({ acc.1 with valid_until := cleanLine (stripKwMatch kw acc.2) }, "")
      else acc)
    (d, line)

def joinSpace : List String → String
  | [] => ""
  | [x] => x
  | x :: rest => x ++ " " ++ joinSpace rest

/-- The objections keyword loop of `save_decision` (protocol.py lines
206-218); every later line is appended to the objection (with
`" ".join`, concatenated directly after the objection text). -/
def applyObjectionKws (cfg : Config) (d : Decision0) (line : String)
    (laterLines : List String) : Decision0 × String :=
  cfg.decision_objection_keywords.foldl
    (fun acc kw =>
      if ciStartsWith kw acc.2 then
        let obj := cleanLine (stripKwMatch kw acc.2)
        let obj := if laterLines ≠ [] then obj ++ joinSpace (laterLines.map cleanLine)
          else obj
        ({ acc.1 with objections := obj }, "")
      else acc)
    (d, line)

/-- The `for i, line in enumerate(lines[1:], start=1)` loop of
`save_decision` (protocol.py lines 191-221). -/
def decisionLinesLoop (cfg : Config) : Decision0 → List String → Decision0
  | d, [] => d
  | d, raw :: rest =>
    let line := cleanLine raw
    if line = "" ∨ d.objections ≠ "" then decisionLinesLoop cfg d rest
    else
      let dl1 := applyValidUntilKws cfg d line
      let dl2 := applyObjectionKws cfg dl1.1 dl1.2 rest
      let d3 := if dl2.2 ≠ "" then { dl2.1 with text := dl2.1.text ++ dl2.2 ++ " " }
        else dl2.1
      decisionLinesLoop cfg d3 rest

/-- `Protocol.save_decision` (protocol.py lines 152-229).  `groupName`
models `self.group.name if self.group else ""` (a database lookup). -/
def saveDecision (cfg : Config) (p : Protocol0) (groupName : String)
    (st : DecisionStore) (block : String) :
    DecisionStore × Except PyErr (Option Decision0) :=
  match pySplitlines (pyStrip block) with
  | [] => (st, .ok none)
  | line0 :: restLines =>
    let title := applyTitleKws cfg (cleanLine line0)
    if pyIn cfg.protocol_decision_example_title title then (st, .ok none)
    else
      let d0 : Decision0 :=
        { title := title, date := p.date, page_id := some p.page_id,
          group_id := p.group_id.getD "", group_name := groupName }
      let d1 := decisionLinesLoop cfg d0 restLines
      let d2 := if title = "" then { d1 with title := d1.text, text := "" } else d1
      match d2.buildIdE with
      | .error e => (st, .error e)
      | .ok id => (storeUpsert id d2 st, .ok (some d2))

def successOpen : List Char := "::: success".data

def closeMarker : List Char := ":::".data

/-- The shortest span before the next `:::` (non-greedy `(.*?):::`);
returns the captured span and the text after the close marker. -/
def takeUntilClose : List Char → Option (List Char × List Char)
  | [] => none
  | c :: rest =>
    if closeMarker.isPrefixOf (c :: rest) then some ([], (c :: rest).drop 3)
    else
      match takeUntilClose rest with
      | some (mid, rem) => some (c :: mid, rem)
      | none => none

/-- `re.findall(r"::: success(.*?):::", content, re.DOTALL)`
(protocol.py lines 141-143).  The fuel argument (initially the length of
the text, which strictly bounds the number of scanning steps) makes the
recursion structural. -/
def findBlocksAux : Nat → List Char → List String
  | 0, _ => []
  | _ + 1, [] => []
  | fuel + 1, c :: rest =>
    if successOpen.isPrefixOf (c :: rest) then
      -- `"::: success"` is 11 characters, so the text after the open
      -- marker is `(c :: rest).drop 11 = rest.drop 10`
      match takeUntilClose (rest.drop 10) with
      | some (mid, rem) => String.mk mid :: findBlocksAux fuel rem
      | none => findBlocksAux fuel rest
    else findBlocksAux fuel rest

def findSuccessBlocks (content : String) : List String :=
  findBlocksAux content.data.length content.data

/-- The loop `for block in decision_blocks: ...` of `extract_decisions`
(protocol.py lines 145-150); an exception from `save_decision` propagates
and aborts the remaining blocks. -/
def processBlocks (cfg : Config) (p : Protocol0) (groupName : String) :
    DecisionStore → List String → DecisionStore × Except PyErr (List Decision0)
  | st, [] => (st, .ok [])
  | st, b :: rest =>
    match saveDecision cfg p groupName st b with
    | (st1, .error e) => (st1, .error e)
    | (st1, .ok none) => processBlocks cfg p groupName st1 rest
    | (st1, .ok (some d)) =>
      match processBlocks cfg p groupName st1 rest with
      | (st2, .ok ds) => (st2, .ok (d :: ds))
      | (st2, .error e) => (st2, .error e)

/-- The keyword parameters accepted by `CouchDBModel.get_all` (base.py
lines 160-163): `limit` and `sort` only — there is no `selector`
parameter. -/
def getAllAccepted : List String := ["limit", "sort"]

/-- Python call binding for `Decision.get_all(**kwargs)` (decision.py
lines 64-66 forwards every keyword argument unchanged to
`CouchDBModel.get_all`): a keyword argument whose name is not an accepted
parameter raises `TypeError`; a successful binding runs the base query,
which selects on the type tag only. -/
def decisionGetAll (kwargNames : List String) (st : DecisionStore) :
    Except PyErr (List (String × Decision0)) :=
  if kwargNames.all (fun k => getAllAccepted.contains k) then .ok st
  else .error .typeError

/-- `Protocol.extract_decisions` (protocol.py lines 121-150): early return
without page content, the future-protocol skip, the delete of previously
stored decisions (via `Decision.get_all(selector=...)`) and the block
loop.  The result is the store after the call together with the returned
list, or the exception raised. -/
def extractDecisions (cfg : Config) (today : PyDate) (p : Protocol0)
    (page : Option PPage) (groupName : String) (st : DecisionStore) :
    DecisionStore × Except PyErr (List Decision0) :=
  match page with
  | none => (st, .ok [])
  | some pg =>
    match pg.content with
    | none => (st, .ok [])
    | some content =>
      if content = "" then (st, .ok [])
      else
        -- `if self.valid_date(self.page.title) and self.date_obj and
        --     self.date_obj > datetime.now().date()` (short-circuit:
        -- `date_obj` is only evaluated, and can only raise, when
        -- `valid_date` holds)
        let skip : Except PyErr Bool :=
          if validDate pg.title then
            match dateObjE p with
            | .error e => .error e
            | .ok none => .ok false
            | .ok (some d) => .ok (PyDate.ltB today d)
          else .ok false
        match skip with
        | .error e => (st, .error e)
        | .ok true => (st, .ok [])
        | .ok false =>
          -- `for d in Decision.get_all(selector={"page_id": self.page_id}): d.delete()`
          match decisionGetAll ["selector"] st with
          | .error e => (st, .error e)
          | .ok ds =>
            let st1 := ds.foldl (fun s kv => storeDelete kv.1 s) st
            processBlocks cfg p groupName st1 (findSuccessBlocks content)

/-! ## CouchDBModel.save — conflict handling (base.py lines 95-128)

The CouchDB server's behaviour is abstracted into an oracle: the outcome
of each of the (at most two) `db.save` attempts, and the `_rev` returned
by `db.get` during the conflict re-fetch. -/

/-- Python truthiness of an optional string (`if not self.id`,
`if self.id`, `if self.rev`). -/
def optTruthy : Option String → Bool
  | none => false
  | some s => s ≠ ""

/-- The persistence fields of an entity being saved. -/
structure SaveEntity where
  id : Option String
  rev : Option String
  updated_at : Option Int
  typ : String
deriving DecidableEq, Repr

/-- The dict passed to `db.save`: `model_dump()` plus `type`, `_id` when
the id is truthy and `_rev` when the revision is truthy (the payload
fields are irrelevant to the protocol and omitted). -/
structure SaveDoc where
  id : Option String
  rev : Option String
  typ : String
  updated_at : Option Int
deriving DecidableEq, Repr

/-- One `db.save` outcome: the saved document's `_id`/`_rev`, or a
`Conflict` response. -/
inductive SaveResp
  | ok (id rev : String)
  | conflict
deriving DecidableEq, Repr

/-- The document store's responses during one `save()` call. -/
structure DbOracle where
  resp1 : SaveResp
  resp2 : SaveResp
  getRev : String → Option String

/-- `if not self.id and hasattr(self, "build_id"): self.id = ...build_id()`
(base.py lines 101-102): the id under which the entity is saved and
re-fetched. -/
def saveIdUsed (e : SaveEntity) (buildId : String) : Option String :=
  if optTruthy e.id then e.id else some buildId

/-- The document passed to the first `db.save` attempt (base.py lines
104-112). -/
def saveDocOf (e : SaveEntity) (buildId : String) (now : Int) : SaveDoc :=
  { id := if optTruthy (saveIdUsed e buildId) then saveIdUsed e buildId else none
    rev := if optTruthy e.rev then e.rev else none
    typ := e.typ, updated_at := some now }

/-- `CouchDBModel.save` (base.py lines 95-128).  Returns the list of
documents passed to the successive `db.save` attempts (the attempt trace)
and either the updated entity or the propagated `Conflict`.  The final
`_cache_add` only touches the read cache and is not part of the write
protocol. -/
def couchdbSave (e : SaveEntity) (buildId : String) (now : Int) (o : DbOracle) :
    List SaveDoc × Except PyErr SaveEntity :=
  let e1 : SaveEntity := { e with updated_at := some now }
  let doc1 := saveDocOf e buildId now
  match o.resp1 with
  | .ok i r => ([doc1], .ok { e1 with id := some i, rev := some r })
  | .conflict =>
    -- `existing_doc = db.get(self.id); self.rev = doc["_rev"] = existing_doc.get("_rev")`
    let fetched := o.getRev ((saveIdUsed e buildId).getD "")
    let doc2 : SaveDoc := { doc1 with rev := fetched }
    match o.resp2 with
    | .ok i r => ([doc1, doc2], .ok { e1 with id := some i, rev := some r })
    | .conflict => ([doc1, doc2], .error .conflict)

/-! ## CouchDBModel.get — the shared typed cache (base.py lines 52-61 and
142-158) -/

/-- The concrete model classes on which `get` is called. -/
inductive EntityKind
  | group
  | protocol
  | decision
  | collectivePage
  | ncUser
deriving DecidableEq, Repr

/-- A cached model instance: its runtime class and an opaque payload. -/
structure CachedInst where
  kind : EntityKind
  id : String
  payload : Int
deriving DecidableEq, Repr

/-- A raw CouchDB document (`db.get`): id and opaque payload. -/
structure RawDoc where
  id : String
  payload : Int
deriving DecidableEq, Repr

/-- `cls(**doc)`: pydantic constructs an instance of the class the call
was made on, from the document's fields. -/
def parseDoc (cls : EntityKind) (d : RawDoc) : CachedInst :=
  { kind := cls, id := d.id, payload := d.payload }

/-- `_cache_get` (base.py lines 52-61): the process-wide cache shared by
all subclasses, keyed by document id.  (The `move_to_end` recency update
only reorders the cache and does not change lookups.) -/
def cacheGet (cache : List (String × CachedInst)) (doc_id : String) :
    Option CachedInst :=
  if doc_id = "" then none
  else (cache.find? (fun kv => kv.1 == doc_id)).map Prod.snd

/-- The fall-through path of `get`: `doc = db.get(doc_id); inst = cls(**doc)`
(base.py lines 155-158). -/
def dbFetch (cls : EntityKind) (doc_id : String) (db : String → Option RawDoc) :
    Except PyErr (CachedInst × Bool) :=
  match db doc_id with
  | some d => .ok (parseDoc cls d, false)
  | none => .error .notFound

/-- `CouchDBModel.get` (base.py lines 142-158).  Returns the instance and
whether it was served from the cache; `db` is the document store. -/
def couchdbGet (cls : EntityKind) (doc_id : String)
    (cache : List (String × CachedInst)) (db : String → Option RawDoc) :
    Except PyErr (CachedInst × Bool) :=
  if doc_id = "" then .error .valueError
  else
    match cacheGet cache doc_id with
    | some cached =>
      -- `if cached and isinstance(cached, cls): return cached`
      if cached.kind = cls then .ok (cached, true)
      else dbFetch cls doc_id db
    | none => dbFetch cls doc_id db

/-! ## CollectivePage.save — vector-index chunk upserts
(collective_page.py lines 142-176) -/

inductive PageSubtype
  | group
  | protocol
deriving DecidableEq, Repr

/-- The fields of a `CollectivePage` consumed by the vector-index sync. -/
structure Page0 where
  ocsId : Int
  title : String
  timestamp : Option Int
  subtype : Option PageSubtype
  content : Option String
deriving DecidableEq, Repr

/-- `CollectivePage.build_id` (collective_page.py lines 69-72):
raises when `ocs.id` is falsy. -/
def pageBuildIdE (collectivesId : Int) (pg : Page0) : Except PyErr String :=
  if pg.ocsId = 0 then .error .valueError
  else .ok ("CollectivePage:" ++ toString collectivesId ++ ":" ++ toString pg.ocsId)

/-- The flat metadata dict attached to each upserted chunk
(collective_page.py lines 163-175). -/
structure ChunkMeta where
  source_type : String
  page_id : Int
  title : String
  timestamp : Int
  subtype : String
  group_id : String
  chunk_index : Nat
  total_chunks : Nat
  original_doc_id : String
deriving DecidableEq, Repr

/-- One `collection.upsert` call. -/
structure ChunkUpsert where
  id : String
  document : String
  meta : ChunkMeta
deriving DecidableEq, Repr

def subtypeStr : Option PageSubtype → String
  | none => ""
  | some .group => "group"
  | some .protocol => "protocol"

/-- The ChromaDB part of `CollectivePage.save` (collective_page.py lines
147-176), i.e. everything after `super().save()`.  `split` abstracts
`text_splitter.split_text` (the langchain `RecursiveCharacterTextSplitter`,
external to this repository) and `resolvedGroupId` abstracts
`Group.get_for_page(self)` — `some` its `build_id()` when the lookup
succeeds, `none` when it raises the "not determinable" `ValueError`. -/
def pageChunkUpserts (collectivesId : Int) (split : String → List String)
    (resolvedGroupId : Option String) (pg : Page0) :
    Except PyErr (List ChunkUpsert) :=
  match pg.content with
  | none => .ok []
  | some content =>
    if content = "" ∨ pyStrip content = "" then .ok []
    else
      match pageBuildIdE collectivesId pg with
      | .error e => .error e
      | .ok docId =>
        let chunks := split content
        .ok ((List.range chunks.length).map (fun i =>
          { id := docId ++ "_chunk_" ++ toString i
            document := chunks.getD i ""
            meta :=
              { source_type := "CollectivePage"
                page_id := pg.ocsId
                title := pg.title
                timestamp := pg.timestamp.getD 0
                subtype := subtypeStr pg.subtype
                group_id := resolvedGroupId.getD ""
                chunk_index := i
                total_chunks := chunks.length
                original_doc_id := docId } }))

/-! ## CollectivePage.delete — the cascade (collective_page.py lines
178-229) -/

/-- A stored CouchDB document as seen by the cascade: its id, its type tag
and its `page_id` field when it has one. -/
structure CascDoc where
  id : String
  typ : String
  page_id : Option Int
deriving DecidableEq, Repr

/-- A vector-index chunk as seen by the cascade: its id and the `page_id`
of its metadata. -/
structure CascChunk where
  id : String
  page_id : Int
deriving DecidableEq, Repr

/-- The two stores touched by the cascade. -/
structure CascState where
  couch : List CascDoc
  chroma : List CascChunk
deriving DecidableEq, Repr

/-- The observable operations of the cascade, in execution order. -/
inductive CascOp
  | relatedDel (id : String) (ok : Bool)
  | chromaBatchDel (ids : List String)
  | pageDel (id : String)
deriving DecidableEq, Repr

def couchRemove (id : String) (docs : List CascDoc) : List CascDoc :=
  docs.filter (fun d => d.id ≠ id)

/-- The per-entity delete loop (collective_page.py lines 196-206):
`db.delete` inside `try/except`, a failure (`delFails`) is logged and the
loop continues. -/
def cascadeEntityLoop (delFails : String → Bool) :
    List CascDoc → List CascDoc × List CascOp → List CascDoc × List CascOp
  | [], acc => acc
  | d :: rest, (docs, ops) =>
    if delFails d.id then cascadeEntityLoop delFails rest (docs, ops ++ [.relatedDel d.id false])
    else cascadeEntityLoop delFails rest (couchRemove d.id docs, ops ++ [.relatedDel d.id true])

/-- `CollectivePage.delete` (collective_page.py lines 178-229).
`pageId` is `self.ocs.id` (the cascade only runs when it is truthy),
`docId` is `self.id` (the CouchDB key of the page document itself),
`delFails` says which `db.delete` calls raise, and `chromaOk` whether the
ChromaDB lookup/delete block succeeds.  Returns the operation trace and
either the final state or the propagated exception. -/
def pageDelete (pageId : Int) (docId : Option String) (delFails : String → Bool)
    (chromaOk : Bool) (st : CascState) : List CascOp × Except PyErr CascState :=
  let entLoop : List CascDoc × List CascOp :=
    if pageId = 0 then (st.couch, [])
    else
      -- `_find` with selector `{"page_id": page_id}`, limit 10000
      cascadeEntityLoop delFails
        ((st.couch.filter (fun d => d.page_id == some pageId)).take 10000) (st.couch, [])
  let chromaStep : List CascChunk × List CascOp :=
    if pageId = 0 then (st.chroma, [])
    else if chromaOk then
      -- `collection.get(where={"page_id": page_id})` then one batch delete
      let chunkIds := (st.chroma.filter (fun c => c.page_id == pageId)).map (·.id)
      if chunkIds = [] then (st.chroma, [])
      else (st.chroma.filter (fun c => !chunkIds.contains c.id), [.chromaBatchDel chunkIds])
    else (st.chroma, [])
  -- `super().delete()`: raises without an id, then `db.delete(self.id)`
  match docId with
  | none => (entLoop.2 ++ chromaStep.2, .error .valueError)
  | some pid =>
    if pid = "" then (entLoop.2 ++ chromaStep.2, .error .valueError)
    else if delFails pid then
      (entLoop.2 ++ chromaStep.2 ++ [.pageDel pid], .error .notFound)
    else (entLoop.2 ++ chromaStep.2 ++ [.pageDel pid],
      .ok { couch := couchRemove pid entLoop.1, chroma := chromaStep.1 })

/-- The couch documents left after the per-entity delete loop. -/
def removeSucc (delFails : String → Bool) (related : List CascDoc)
    (docs : List CascDoc) : List CascDoc :=
  related.foldl (fun acc d => if delFails d.id then acc else couchRemove d.id acc) docs

/-- Python string `<=`, the order produced by `sorted`. -/
def strLe (a b : String) : Prop := strLtB b a = false

/-- The role-classification components of the scan state (everything but
`short_names`). -/
def GroupScan.core (st : GroupScan) :
    String × List String × List String × List String :=
  (st.attr, st.coordination, st.delegate, st.members)

/-- The record produced by a successful `Group.update_from_page` run, as
a function of the page content, the resolved group names and the previous
group state. -/
def groupUpdateResult (cfg : Config) (page : GPage) (content : String)
    (name0 : String) (restNames : List String) (g : Group0) : Group0 :=
  let st := groupScan cfg (pySplitlines content)
    { attr := "", coordination := [], delegate := [], members := [],
      short_names := g.short_names }
  { g with
    name := name0
    parent_group := match restNames with | p :: _ => some p | [] => g.parent_group
    emoji := (page.emoji).getD ""
    coordination := st.coordination
    delegate := st.delegate
    members := pySortedSetDiff st.members st.coordination st.delegate
    short_names := st.short_names }

/-- The record produced by a successful run of the field-parsing part of
`Protocol.update_from_page`. -/
def protocolUpdateResult (cfg : Config) (ppage : PPage) (rg : Option String)
    (content : String) (p : Protocol0) : Protocol0 :=
  let st := protScanLines cfg
    { attr := "", moderated_by := [], protocol_by := [], participants := [] }
    (pySplitlines content)
  { p with
    date := if validDate ppage.title then (pySplit ' ' ppage.title).headD "" else p.date
    group_id := match rg with | some gid => some gid | none => p.group_id
    moderated_by := st.moderated_by
    protocol_by := st.protocol_by
    participants := pySortedSetDiff st.participants st.moderated_by st.protocol_by }

/-! ## Concrete fixtures used by witnesses and counterexamples -/

def todayW : PyDate := ⟨2026, 10, 12⟩

def pC1 : Protocol0 := { page_id := 12345, date := "2024-01-01" }

def pageC1 : PPage :=
  { title := "2024-01-01 Gruppe"
    content := some "::: success\n**Entscheidung:** Neues Budget\n:::" }

def stC1 : DecisionStore :=
  [("Decision:12345:Alt", { title := "Alt", date := "2023-01-01", page_id := some 12345 })]

def eC2 : SaveEntity :=
  { id := some "Protocol:7", rev := some "1-a", updated_at := none, typ := "Protocol" }

def oC2 : DbOracle :=
  { resp1 := .conflict, resp2 := .conflict, getRev := fun _ => some "2-b" }

def failsC3 : String → Bool := fun i => i == "Decision:5:fail"

def stC3 : CascState :=
  { couch := [⟨"Decision:5:ok", "Decision", some 5⟩, ⟨"Decision:5:fail", "Decision", some 5⟩,
      ⟨"Protocol:5", "Protocol", some 5⟩, ⟨"Group:9", "Group", some 9⟩,
      ⟨"CollectivePage:1:5", "CollectivePage", none⟩]
    chroma := [⟨"CollectivePage:1:5_chunk_0", 5⟩, ⟨"CollectivePage:1:5_chunk_1", 5⟩,
      ⟨"CollectivePage:1:9_chunk_0", 9⟩] }

def pC4 : Protocol0 := { page_id := 77, date := "2020-01-01" }

def pageC4 : PPage :=
  { title := "9999-01-01 Gruppe", content := some "::: success\nfoo\n:::" }

def stC4 : DecisionStore :=
  [("Decision:77:Bestand", { title := "Bestand", date := "2024-05-05", page_id := some 77 })]

def pC4w : Protocol0 := { page_id := 88, date := "2027-01-01" }

def pageC4w : PPage :=
  { title := "2027-01-01 Gruppe", content := some "::: success\nfoo\n:::" }

def stC4w : DecisionStore :=
  [("Decision:88:Bestand", { title := "Bestand", date := "2024-05-05", page_id := some 88 })]

def stC5g : GroupScan :=
  { attr := "coordination", coordination := [], delegate := [], members := [], short_names := [] }

def stC5p : ProtScan :=
  { attr := "moderated_by", moderated_by := [], protocol_by := [], participants := [] }

def gW6 : Group0 := { page_id := 11 }

def pageW6 : GPage :=
  { full_path := "Wiki/AG Garten"
    content := some
      "Koordination: mention://user/erin\nKurznamen: garten\nMitglieder: mention://user/dana mention://user/erin"
    emoji := some "G" }

def gW6r : Group0 :=
  { name := "AG Garten", page_id := 11, parent_group := none, emoji := "G",
    coordination := ["erin"], delegate := [], members := ["dana"], short_names := ["garten"] }

def gC7 : Group0 := { page_id := 3 }

def pageC7 : GPage :=
  { full_path := "AG Test", content := some "Kurznamen: neu", emoji := none }

def gW7 : Group0 := { page_id := 21 }

def pageW7 : GPage :=
  { full_path := "AG Kultur"
    content := some
      "Koordination: mention://user/kim\nKurznamen: kult\nMitglieder: mention://user/lee"
    emoji := none }

def gW7a : Group0 :=
  { name := "AG Kultur", page_id := 21, parent_group := none, emoji := "",
    coordination := ["kim"], delegate := [], members := ["lee"], short_names := ["kult"] }

def gW7b : Group0 := { gW7a with short_names := ["kult", "kult"] }

def pW7 : Protocol0 := { page_id := 22, date := "alt" }

def ppageW7 : PPage :=
  { title := "2024-03-04 Kultur"
    content := some
      "Moderation: mention://user/mia\nTeilnehmerinnen: mention://user/noa mention://user/mia" }

def pW7a : Protocol0 :=
  { group_id := some "Group:21", page_id := 22, date := "2024-03-04",
    moderated_by := ["mia"], protocol_by := [], participants := ["noa"],
    summary_posted := false, ai_summary := "" }

def pgC8 : Page0 :=
  { ocsId := 42, title := "2024-11-07 Gruppe", timestamp := some 1730976000,
    subtype := some .protocol, content := some "alpha beta. gamma delta" }

def splitC8 : String → List String := fun s =>
  [String.mk (s.data.take 10), String.mk ((s.data.drop 8).take 10), String.mk (s.data.drop 16)]

def pC9 : Protocol0 := { page_id := 9, date := "2024-11-07" }

def cacheC10 : List (String × CachedInst) :=
  [("Decision:5:x", ⟨.decision, "Decision:5:x", 1⟩)]

def dbC10 : String → Option RawDoc := fun i =>
  if i = "Decision:5:x" then some ⟨"Decision:5:x", 7⟩ else none


theorem cascadeEntityLoop_eq (delFails : String → Bool) :
    ∀ (related : List CascDoc) (docs : List CascDoc) (ops : List CascOp),
    cascadeEntityLoop delFails related (docs, ops) =
      (removeSucc delFails related docs,
       ops ++ related.map (fun d => .relatedDel d.id (!delFails d.id)))
  | [], docs, ops => by simp [cascadeEntityLoop, removeSucc]
  | d :: rest, docs, ops => by
    rw [cascadeEntityLoop]
    by_cases hf : delFails d.id
    · rw [if_pos hf, cascadeEntityLoop_eq delFails rest]
      simp [removeSucc, hf, List.foldl_cons]
    · rw [if_neg hf, cascadeEntityLoop_eq delFails rest]
      simp [removeSucc, hf, List.foldl_cons]

theorem mem_couchRemove {d : CascDoc} {id : String} {docs : List CascDoc} :
    d ∈ couchRemove id docs ↔ d ∈ docs ∧ d.id ≠ id := by
  simp [couchRemove, List.mem_filter]

theorem mem_removeSucc (delFails : String → Bool) :
    ∀ (related : List CascDoc) (docs : List CascDoc) (d : CascDoc),
    d ∈ removeSucc delFails related docs ↔
      d ∈ docs ∧ ∀ r ∈ related, delFails r.id = false → d.id ≠ r.id
  | [], docs, d => by simp [removeSucc]
  | r :: rest, docs, d => by
    have hstep : removeSucc delFails (r :: rest) docs =
        removeSucc delFails rest (if delFails r.id then docs else couchRemove r.id docs) := by
      simp [removeSucc, List.foldl_cons]
    rw [hstep, mem_removeSucc delFails rest]
    by_cases hf : delFails r.id
    · simp [hf]
    · simp only [if_neg hf, mem_couchRemove]
      constructor
      · rintro ⟨⟨hd, hne⟩, hrest⟩
        refine ⟨hd, ?_⟩
        intro r' hr' hfr'
        rcases List.mem_cons.mp hr' with rfl | hr'
        · exact hne
        · exact hrest r' hr' hfr'
      · rintro ⟨hd, hall⟩
        refine ⟨⟨hd, hall r (List.mem_cons_self r rest) (by simpa using hf)⟩, ?_⟩
        intro r' hr' hfr'
        exact hall r' (List.mem_cons_of_mem r hr') hfr'

/-! ## Order lemmas for the Python string sort -/

theorem lexLt_asymm : ∀ {a b : List Char}, lexLt a b = true → lexLt b a = false
  | [], [] => by simp [lexLt]
  | [], _ :: _ => by intro; simp [lexLt]
  | _ :: _, [] => by simp [lexLt]
  | a :: as, b :: bs => by
    intro h
    rw [lexLt] at h ⊢
    split at h
    · rename_i hab
      rw [if_neg (UInt32.lt_asymm hab), if_pos hab]
    · split at h
      · exact absurd h (by simp)
      · rename_i h1 h2
        rw [if_neg h1, if_neg h2]
        exact lexLt_asymm h

theorem lexLt_nil_right : ∀ (a : List Char), lexLt a [] = false
  | [] => rfl
  | _ :: _ => rfl

theorem lexLt_trans : ∀ {a b c : List Char},
    lexLt a b = true → lexLt b c = true → lexLt a c = true
  | a, _, [] => by
    intro _ h2
    rw [lexLt_nil_right] at h2
    exact absurd h2 (by simp)
  | a, [], _ :: _ => by
    intro h1 _
    rw [lexLt_nil_right] at h1
    exact absurd h1 (by simp)
  | [], _ :: _, _ :: _ => by intros; rfl
  | a :: as, b :: bs, c :: cs => by
    intro h1 h2
    rw [lexLt] at h1 h2 ⊢
    split at h1
    · rename_i hab
      split at h2
      · rename_i hbc
        rw [if_pos (UInt32.lt_trans hab hbc)]
      · split at h2
        · exact absurd h2 (by simp)
        · rename_i hcb _
          have hbc : b.val = c.val :=
            UInt32.le_antisymm (UInt32.not_lt.mp (by assumption)) (UInt32.not_lt.mp hcb)
          rw [hbc] at hab
          rw [if_pos hab]
    · split at h1
      · exact absurd h1 (by simp)
      · rename_i hab hba
        have heq : a.val = b.val :=
          UInt32.le_antisymm (UInt32.not_lt.mp hba) (UInt32.not_lt.mp hab)
        split at h2
        · rename_i hbc
          rw [heq] at *
          rw [if_pos hbc]
        · split at h2
          · exact absurd h2 (by simp)
          · rename_i hbc hcb
            rw [heq] at *
            rw [if_neg hbc, if_neg hcb]
            exact lexLt_trans h1 h2

theorem lexLt_connex : ∀ {a b : List Char},
    lexLt a b = false → lexLt b a = false → a = b
  | [], [] => by intros; rfl
  | [], _ :: _ => by intro h; simp [lexLt] at h
  | _ :: _, [] => by intro _ h; simp [lexLt] at h
  | a :: as, b :: bs => by
    intro h1 h2
    rw [lexLt] at h1 h2
    split at h1
    · exact absurd h1 (by simp)
    · split at h1
      · rename_i hab hba
        rw [if_pos hba] at h2
        exact absurd h2 (by simp)
      · rename_i hab hba
        have heq : a = b := Char.eq_of_val_eq
          (UInt32.le_antisymm (UInt32.not_lt.mp hba) (UInt32.not_lt.mp hab))
        rw [if_neg hba, if_neg hab] at h2
        rw [heq, lexLt_connex h1 h2]


theorem strLe_trans {a b c : String} (h1 : strLe a b) (h2 : strLe b c) : strLe a c := by
  unfold strLe strLtB at *
  by_cases h : lexLt c.data a.data = true
  · by_cases hxy : lexLt a.data b.data = true
    · exact absurd (lexLt_trans h hxy) (by simp [h2])
    · have := lexLt_connex (by simpa using hxy) h1
      rw [← show a.data = b.data from this] at h2
      exact absurd h (by simp [h2])
  · simpa using h

theorem strLe_of_lt {a b : String} (h : strLtB a b = true) : strLe a b :=
  lexLt_asymm h

theorem strLe_of_not_lt {a b : String} (h : strLtB b a = false) : strLe a b := h

theorem mem_pyInsert {y x : String} : ∀ {l : List String},
    y ∈ pyInsert x l ↔ y = x ∨ y ∈ l
  | [] => by simp [pyInsert]
  | z :: zs => by
    rw [pyInsert]
    split
    · simp only [List.mem_cons, mem_pyInsert]
      tauto
    · simp only [List.mem_cons]

theorem mem_pySort {y : String} : ∀ {l : List String}, y ∈ pySort l ↔ y ∈ l
  | [] => by simp [pySort]
  | z :: zs => by
    have : pySort (z :: zs) = pyInsert z (pySort zs) := rfl
    rw [this, mem_pyInsert, mem_pySort]
    simp

theorem pyInsert_sorted {x : String} : ∀ {l : List String},
    List.Sorted strLe l → List.Sorted strLe (pyInsert x l)
  | [], _ => by simp [pyInsert]
  | z :: zs, h => by
    rw [pyInsert]
    have hz := List.sorted_cons.mp h
    split
    · rename_i hlt
      rw [List.sorted_cons]
      refine ⟨?_, pyInsert_sorted hz.2⟩
      intro b hb
      rcases mem_pyInsert.mp hb with rfl | hb
      · exact strLe_of_lt hlt
      · exact hz.1 b hb
    · rename_i hnlt
      rw [List.sorted_cons]
      refine ⟨?_, h⟩
      intro b hb
      rcases List.mem_cons.mp hb with rfl | hb
      · exact strLe_of_not_lt (by simpa using hnlt)
      · exact strLe_trans (strLe_of_not_lt (by simpa using hnlt)) (hz.1 b hb)

theorem pySort_sorted : ∀ (l : List String), List.Sorted strLe (pySort l)
  | [] => by simp [pySort]
  | z :: zs => pyInsert_sorted (pySort_sorted zs)

theorem pyInsert_nodup {x : String} : ∀ {l : List String},
    l.Nodup → x ∉ l → (pyInsert x l).Nodup
  | [], _, _ => by simp [pyInsert]
  | z :: zs, h, hx => by
    rw [pyInsert]
    have hz := List.nodup_cons.mp h
    split
    · rw [List.nodup_cons]
      refine ⟨?_, pyInsert_nodup hz.2 (fun hc => hx (List.mem_cons_of_mem _ hc))⟩
      rw [mem_pyInsert]
      push_neg
      exact ⟨fun hzx => hx (hzx ▸ List.mem_cons_self z zs), hz.1⟩
    · rw [List.nodup_cons, List.nodup_cons]
      exact ⟨by simpa using hx, hz.1, hz.2⟩

theorem pySort_nodup : ∀ {l : List String}, l.Nodup → (pySort l).Nodup
  | [], _ => by simp [pySort]
  | z :: zs, h => by
    have hz := List.nodup_cons.mp h
    exact pyInsert_nodup (pySort_nodup hz.2) (fun hc => hz.1 (mem_pySort.mp hc))

theorem mem_pySortedSet {y : String} {l : List String} :
    y ∈ pySortedSet l ↔ y ∈ l := by
  rw [pySortedSet, mem_pySort, List.mem_dedup]

theorem pySortedSet_nodup (l : List String) : (pySortedSet l).Nodup :=
  pySort_nodup l.nodup_dedup

theorem pySortedSet_sorted (l : List String) : List.Sorted strLe (pySortedSet l) :=
  pySort_sorted _

theorem mem_pySortedSetDiff {y : String} {a b c : List String} :
    y ∈ pySortedSetDiff a b c ↔ y ∈ a ∧ y ∉ b ∧ y ∉ c := by
  rw [pySortedSetDiff, mem_pySort, List.mem_filter, List.mem_dedup]
  simp [List.elem_iff]

/-! ## The group scan's role state does not depend on the accumulated
short names -/


theorem groupMentionBlock_factor (cfg : Config) (line fw : String) (a : String)
    (c d m s s' : List String) :
    groupMentionBlock cfg ⟨a, c, d, m, s⟩ line fw =
      { groupMentionBlock cfg ⟨a, c, d, m, s'⟩ line fw with short_names := s } := by
  dsimp only [groupMentionBlock, roleAppend]
  split_ifs <;> rfl

theorem groupLineStep_core (cfg : Config) (line : String) (a : String)
    (c d m s s' : List String) :
    (groupLineStep cfg ⟨a, c, d, m, s⟩ line).core =
      (groupLineStep cfg ⟨a, c, d, m, s'⟩ line).core := by
  unfold groupLineStep
  cases hfw : firstWordLower line with
  | none => rfl
  | some fw =>
    dsimp only
    split_ifs
    · rw [groupMentionBlock_factor cfg line fw "coordination" c d m s s']; rfl
    · rw [groupMentionBlock_factor cfg line fw "delegate" c d m s s']; rfl
    · rw [groupMentionBlock_factor cfg line fw "members" c d m s s']; rfl
    · rfl
    · rw [groupMentionBlock_factor cfg line fw a c d m s s']; rfl

theorem groupScan_core (cfg : Config) : ∀ (lines : List String) (a : String)
    (c d m s s' : List String),
    (groupScan cfg lines ⟨a, c, d, m, s⟩).core =
      (groupScan cfg lines ⟨a, c, d, m, s'⟩).core
  | [], _, _, _, _, _, _ => rfl
  | line :: rest, a, c, d, m, s, s' => by
    show (groupScan cfg rest (groupLineStep cfg ⟨a, c, d, m, s⟩ line)).core = _
    have hA := groupLineStep_core cfg line a c d m s s'
    have e1 : groupLineStep cfg ⟨a, c, d, m, s⟩ line =
        ⟨(groupLineStep cfg ⟨a, c, d, m, s⟩ line).attr,
         (groupLineStep cfg ⟨a, c, d, m, s⟩ line).coordination,
         (groupLineStep cfg ⟨a, c, d, m, s⟩ line).delegate,
         (groupLineStep cfg ⟨a, c, d, m, s⟩ line).members,
         (groupLineStep cfg ⟨a, c, d, m, s⟩ line).short_names⟩ := rfl
    have e2 : groupLineStep cfg ⟨a, c, d, m, s'⟩ line =
        ⟨(groupLineStep cfg ⟨a, c, d, m, s'⟩ line).attr,
         (groupLineStep cfg ⟨a, c, d, m, s'⟩ line).coordination,
         (groupLineStep cfg ⟨a, c, d, m, s'⟩ line).delegate,
         (groupLineStep cfg ⟨a, c, d, m, s'⟩ line).members,
         (groupLineStep cfg ⟨a, c, d, m, s'⟩ line).short_names⟩ := rfl
    obtain ⟨h1, h2, h3, h4⟩ : (groupLineStep cfg ⟨a, c, d, m, s⟩ line).attr =
          (groupLineStep cfg ⟨a, c, d, m, s'⟩ line).attr ∧
        (groupLineStep cfg ⟨a, c, d, m, s⟩ line).coordination =
          (groupLineStep cfg ⟨a, c, d, m, s'⟩ line).coordination ∧
        (groupLineStep cfg ⟨a, c, d, m, s⟩ line).delegate =
          (groupLineStep cfg ⟨a, c, d, m, s'⟩ line).delegate ∧
        (groupLineStep cfg ⟨a, c, d, m, s⟩ line).members =
          (groupLineStep cfg ⟨a, c, d, m, s'⟩ line).members := by
      simpa [GroupScan.core, Prod.ext_iff] using hA
    rw [e1, h1, h2, h3, h4]
    rw [groupScan_core cfg rest _ _ _ _
      ((groupLineStep cfg ⟨a, c, d, m, s⟩ line).short_names)
      ((groupLineStep cfg ⟨a, c, d, m, s'⟩ line).short_names)]
    rw [← e2]
    rfl


theorem groupUpdateFromPage_ok {cfg : Config} {page : GPage} {g g' : Group0}
    (h : groupUpdateFromPage cfg page g = .ok g') :
    ∃ content name0 restNames,
      page.content = some content ∧ content ≠ "" ∧
      validGroupNames cfg page.full_path = name0 :: restNames ∧
      g' = groupUpdateResult cfg page content name0 restNames g := by
  unfold groupUpdateFromPage at h
  cases hc : page.content with
  | none => rw [hc] at h; exact absurd h (by simp)
  | some content =>
    rw [hc] at h
    dsimp only at h
    by_cases hce : content = ""
    · rw [if_pos hce] at h
      exact absurd h (by simp)
    · rw [if_neg hce] at h
      cases hn : validGroupNames cfg page.full_path with
      | nil => rw [hn] at h; exact absurd h (by simp)
      | cons name0 restNames =>
        rw [hn] at h
        dsimp only at h
        injection h with h'
        refine ⟨content, name0, restNames, rfl, hce, rfl, ?_⟩
        rw [← h']
        unfold groupUpdateResult
        cases restNames <;> rfl


theorem protocolUpdateFields_ok {cfg : Config} {ppage : PPage} {rg : Option String}
    {p p' : Protocol0} (h : protocolUpdateFields cfg ppage rg p = .ok p') :
    ∃ content, ppage.content = some content ∧ content ≠ "" ∧
      p' = protocolUpdateResult cfg ppage rg content p := by
  unfold protocolUpdateFields at h
  cases hc : ppage.content with
  | none => rw [hc] at h; exact absurd h (by simp)
  | some content =>
    rw [hc] at h
    dsimp only at h
    by_cases hce : content = ""
    · rw [if_pos hce] at h
      exact absurd h (by simp)
    · rw [if_neg hce] at h
      injection h with h'
      exact ⟨content, rfl, hce, h'.symm⟩


/-! ## Claims -/

/-- **C1.**  The claim says `extract_decisions` first deletes every stored
decision with the protocol's page id and then inserts the freshly parsed
ones.  The code cannot do this: the delete step calls
`Decision.get_all(selector={"page_id": self.page_id})`, but
`CouchDBModel.get_all` (base.py lines 160-163) has no `selector`
parameter, so on every non-future-dated protocol page with content the
call raises `TypeError` before anything is deleted or parsed.  At the
concrete fixture (a 2024 protocol page with one success block and one
previously stored decision) the result is the unchanged store together
with the `TypeError`. -/
theorem c1_extract_decisions_typeerror :
    extractDecisions defaultConfig todayW pC1 (some pageC1) "" stC1 =
      (stC1, .error .typeError) := by
  decide

/-- **C2.**  On a revision conflict `CouchDBModel.save` re-fetches the
current document by id, adopts its revision token, and retries exactly
once; a second conflict propagates to the caller: when `db.save` first
reports a conflict there are exactly two save attempts, the second
carrying the revision obtained from `db.get(self.id)`; a success of the
retry updates the entity from the response and a second conflict is
returned as the error. -/
theorem c2_conflict_single_retry (e : SaveEntity) (buildId : String) (now : Int)
    (o : DbOracle) (h : o.resp1 = .conflict) :
    (couchdbSave e buildId now o).1 =
      [saveDocOf e buildId now,
       { saveDocOf e buildId now with
         rev := o.getRev ((saveIdUsed e buildId).getD "") }] ∧
    (o.resp2 = .conflict → (couchdbSave e buildId now o).2 = .error .conflict) ∧
    (∀ i r, o.resp2 = .ok i r → (couchdbSave e buildId now o).2 =
      .ok { e with updated_at := some now, id := some i, rev := some r }) := by
  unfold couchdbSave
  rw [h]
  cases h2 : o.resp2 with
  | ok i r =>
    refine ⟨rfl, ?_, ?_⟩
    · intro hc
      exact absurd hc (by simp)
    · intro i' r' hok
      injection hok with hi hr
      subst hi
      subst hr
      rfl
  | conflict =>
    refine ⟨rfl, fun _ => rfl, ?_⟩
    · intro i' r' hok
      exact absurd hok (by simp)

theorem c2_conflict_single_retry_witness :
    oC2.resp1 = .conflict ∧
    ((couchdbSave eC2 "Protocol:7" 1700000000 oC2).1 =
      [saveDocOf eC2 "Protocol:7" 1700000000,
       { saveDocOf eC2 "Protocol:7" 1700000000 with
         rev := oC2.getRev ((saveIdUsed eC2 "Protocol:7").getD "") }] ∧
     (oC2.resp2 = .conflict →
       (couchdbSave eC2 "Protocol:7" 1700000000 oC2).2 = .error .conflict) ∧
     (∀ i r, oC2.resp2 = .ok i r → (couchdbSave eC2 "Protocol:7" 1700000000 oC2).2 =
       .ok { eC2 with updated_at := some 1700000000, id := some i, rev := some r })) :=
  ⟨rfl, c2_conflict_single_retry eC2 "Protocol:7" 1700000000 oC2 rfl⟩

/-- **C4.**  Counterexample to the claim as stated: the future check of
`extract_decisions` compares the protocol's own `date` field against
today, not the date in the page title.  For a protocol whose stored
`date` is 2020-01-01 while its page title carries the parseable future
date 9999-01-01, extraction is not skipped; the call runs into the
`Decision.get_all(selector=...)` `TypeError` instead of returning an
empty list. -/
theorem c4_counterexample :
    validDate pageC4.title = true ∧
    parseYmd ((pySplit ' ' pageC4.title).headD "") = some ⟨9999, 1, 1⟩ ∧
    PyDate.ltB todayW ⟨9999, 1, 1⟩ = true ∧
    extractDecisions defaultConfig todayW pC4 (some pageC4) "" stC4 =
      (stC4, .error .typeError) := by
  refine ⟨by decide, by decide, by decide, by decide⟩

/-- **C4 (amended).**  For every protocol whose page title carries a
parseable date and whose own `date` field's first token parses to a date
strictly greater than the current date, `extract_decisions` returns the
empty list and leaves the stored decisions untouched: nothing is deleted
and nothing is inserted. -/
theorem c4_future_protocol_skip (cfg : Config) (today : PyDate) (p : Protocol0)
    (pg : PPage) (groupName : String) (st : DecisionStore) (d : PyDate)
    (hv : validDate pg.title = true)
    (hd : dateObjE p = .ok (some d))
    (hgt : PyDate.ltB today d = true) :
    extractDecisions cfg today p (some pg) groupName st = (st, .ok []) := by
  unfold extractDecisions
  dsimp only
  cases hc : pg.content with
  | none => rfl
  | some content =>
    dsimp only
    by_cases hce : content = ""
    · rw [if_pos hce]
    · rw [if_neg hce, hv]
      simp only [if_true]
      rw [hd]
      dsimp only
      rw [hgt]

theorem c4_future_protocol_skip_witness :
    validDate pageC4w.title = true ∧
    dateObjE pC4w = .ok (some ⟨2027, 1, 1⟩) ∧
    PyDate.ltB todayW ⟨2027, 1, 1⟩ = true ∧
    extractDecisions defaultConfig todayW pC4w (some pageC4w) "" stC4w =
      (stC4w, .ok []) :=
  ⟨by decide, by decide, by decide,
   c4_future_protocol_skip defaultConfig todayW pC4w pageC4w "" stC4w ⟨2027, 1, 1⟩
     (by decide) (by decide) (by decide)⟩

/-- **C8.**  On a page save with non-empty content that splits into `n`
chunks, chunk `i` is upserted under the id `<page entity id>_chunk_<i>`
with flat metadata consisting exactly of `source_type`, the numeric
`page_id`, `title`, `timestamp` (or 0), `subtype` (empty, group or
protocol), `group_id` (empty when the group cannot be resolved),
`chunk_index = i`, `total_chunks = n` and `original_doc_id` equal to the
page's entity id. -/
theorem c8_chunk_upserts (collectivesId : Int) (split : String → List String)
    (rg : Option String) (pg : Page0) (content docId : String)
    (hc : pg.content = some content) (hne : pyStrip content ≠ "")
    (hid : pageBuildIdE collectivesId pg = .ok docId) :
    pageChunkUpserts collectivesId split rg pg =
      .ok ((List.range (split content).length).map (fun i =>
        { id := docId ++ "_chunk_" ++ toString i
          document := (split content).getD i ""
          meta :=
            { source_type := "CollectivePage", page_id := pg.ocsId, title := pg.title
              timestamp := pg.timestamp.getD 0, subtype := subtypeStr pg.subtype
              group_id := rg.getD "", chunk_index := i
              total_chunks := (split content).length
              original_doc_id := docId } })) := by
  unfold pageChunkUpserts
  rw [hc]
  dsimp only
  have hcne : ¬(content = "" ∨ pyStrip content = "") := by
    rintro (rfl | hx)
    · exact hne rfl
    · exact hne hx
  rw [if_neg hcne, hid]

theorem c8_chunk_upserts_witness :
    pgC8.content = some "alpha beta. gamma delta" ∧
    pyStrip "alpha beta. gamma delta" ≠ "" ∧
    pageBuildIdE 99 pgC8 = .ok "CollectivePage:99:42" ∧
    pageChunkUpserts 99 splitC8 (some "Group:12") pgC8 =
      .ok ((List.range (splitC8 "alpha beta. gamma delta").length).map (fun i =>
        { id := "CollectivePage:99:42" ++ "_chunk_" ++ toString i
          document := (splitC8 "alpha beta. gamma delta").getD i ""
          meta :=
            { source_type := "CollectivePage", page_id := pgC8.ocsId, title := pgC8.title
              timestamp := pgC8.timestamp.getD 0, subtype := subtypeStr pgC8.subtype
              group_id := (some "Group:12").getD "", chunk_index := i
              total_chunks := (splitC8 "alpha beta. gamma delta").length
              original_doc_id := "CollectivePage:99:42" } })) :=
  ⟨by decide, by decide, by decide,
   c8_chunk_upserts 99 splitC8 (some "Group:12") pgC8 "alpha beta. gamma delta"
     "CollectivePage:99:42" (by decide) (by decide) (by decide)⟩

/-- **C9.**  Counterexample to the claim as stated: a malformed success
block that still contains visible characters — here `"****"`, from which
neither a non-empty title nor a non-empty body can be parsed — is not
skipped: `save_decision` builds a decision with empty title and text and
`Decision.build_id` raises `ValueError`, which propagates out of the
block loop, so the well-formed sibling block following it is neither
extracted nor saved (the store stays empty and the loop returns the
error). -/
theorem c9_counterexample :
    processBlocks defaultConfig pC9 "" [] ["****", "\nGute Entscheidung\nText dazu\n"] =
      ([], .error .valueError) := by
  decide

/-- **C9 (amended).**  A success block that is empty after stripping
whitespace is skipped without raising, and the remaining sibling blocks
are processed exactly as if the malformed block were absent; a malformed
block with visible characters but neither parsable title nor body instead
raises `ValueError` from `Decision.build_id`, aborting its siblings. -/
theorem c9_blank_block_skipped (cfg : Config) (p : Protocol0) (groupName : String)
    (st : DecisionStore) (b : String) (rest : List String)
    (hb : pyStrip b = "") :
    saveDecision cfg p groupName st b = (st, .ok none) ∧
    processBlocks cfg p groupName st (b :: rest) =
      processBlocks cfg p groupName st rest := by
  have hlines : pySplitlines (pyStrip b) = [] := by rw [hb]; rfl
  have hsave : saveDecision cfg p groupName st b = (st, .ok none) := by
    unfold saveDecision
    rw [hlines]
  refine ⟨hsave, ?_⟩
  rw [processBlocks, hsave]

theorem c9_blank_block_skipped_witness :
    pyStrip "   \n  \n  " = "" ∧
    (saveDecision defaultConfig pC9 "" [] "   \n  \n  " = ([], .ok none) ∧
     processBlocks defaultConfig pC9 "" [] ["   \n  \n  ", "Echte Entscheidung"] =
       processBlocks defaultConfig pC9 "" [] ["Echte Entscheidung"]) :=
  ⟨by decide, c9_blank_block_skipped defaultConfig pC9 "" [] "   \n  \n  "
    ["Echte Entscheidung"] (by decide)⟩

/-- **C10.**  A cache entry is returned by `CouchDBModel.get` only when
the cached object is an instance of the class the call was made on; any
successful `get` yields an instance of that class, and when the cached
object has a different entity type the call falls through to the document
store: the shared cache never yields a wrongly-typed entity. -/
theorem c10_cache_type_check (cls : EntityKind) (doc_id : String)
    (cache : List (String × CachedInst)) (db : String → Option RawDoc)
    (inst : CachedInst) (fromCache : Bool)
    (h : couchdbGet cls doc_id cache db = .ok (inst, fromCache)) :
    inst.kind = cls ∧
    (fromCache = true → cacheGet cache doc_id = some inst) ∧
    (∀ c0, cacheGet cache doc_id = some c0 → c0.kind ≠ cls →
      couchdbGet cls doc_id cache db = dbFetch cls doc_id db) := by
  unfold couchdbGet at h ⊢
  by_cases hid : doc_id = ""
  · rw [if_pos hid] at h
    exact absurd h (by simp)
  · rw [if_neg hid] at h ⊢
    cases hcg : cacheGet cache doc_id with
    | none =>
      rw [hcg] at h
      dsimp only at h ⊢
      have hdbf : inst.kind = cls ∧ fromCache = false := by
        unfold dbFetch at h
        cases hdb : db doc_id with
        | none => rw [hdb] at h; exact absurd h (by simp)
        | some dd =>
          rw [hdb] at h
          dsimp only at h
          injection h with h'
          simp only [Prod.mk.injEq] at h'
          exact ⟨by rw [← h'.1]; rfl, h'.2.symm⟩
      refine ⟨hdbf.1, ?_, ?_⟩
      · intro hfc
        rw [hdbf.2] at hfc
        exact absurd hfc (by simp)
      · intro c0 hc0
        exact absurd hc0 (by simp)
    | some cached =>
      rw [hcg] at h
      dsimp only at h ⊢
      by_cases hk : cached.kind = cls
      · rw [if_pos hk] at h ⊢
        injection h with h'
        have hinst : inst = cached := congrArg Prod.fst h'.symm
        refine ⟨by rw [hinst]; exact hk, ?_, ?_⟩
        · intro _
          rw [hinst]
        · intro c0 hc0 hck
          injection hc0 with hc0'
          rw [← hc0'] at hck
          exact absurd hk hck
      · rw [if_neg hk] at h ⊢
        have hdbf : inst.kind = cls ∧ fromCache = false := by
          unfold dbFetch at h
          cases hdb : db doc_id with
          | none => rw [hdb] at h; exact absurd h (by simp)
          | some dd =>
            rw [hdb] at h
            dsimp only at h
            injection h with h'
            simp only [Prod.mk.injEq] at h'
            exact ⟨by rw [← h'.1]; rfl, h'.2.symm⟩
        refine ⟨hdbf.1, ?_, fun c0 hc0 hck => rfl⟩
        · intro hfc
          rw [hdbf.2] at hfc
          exact absurd hfc (by simp)

/-- **C3.**  For a page delete with a non-zero numeric page id, the
cascade first attempts to delete each stored document (of any type) whose
`page_id` field equals that id, recording a per-entity failure in the
trace without raising; then deletes in one batch every vector-index chunk
whose metadata page id matches; and deletes the page document itself
last.  The cascade completes (`ok`) even when some per-entity deletes or
the whole chroma step fail; surviving couch documents are exactly those
that are not the page document and were not successfully deleted by the
loop, and when the chroma step runs, no chunk with the page id
survives. -/
theorem c3_page_delete_cascade (pageId : Int) (i : String)
    (delFails : String → Bool) (chromaOk : Bool) (st : CascState)
    (hpid : pageId ≠ 0) (hi : i ≠ "") (hdel : delFails i = false)
    (hlim : (st.couch.filter (fun d => d.page_id == some pageId)).length ≤ 10000) :
    (pageDelete pageId (some i) delFails chromaOk st).1 =
      (st.couch.filter (fun d => d.page_id == some pageId)).map
          (fun d => .relatedDel d.id (!delFails d.id)) ++
        (if chromaOk = true ∧
            ((st.chroma.filter (fun c => c.page_id == pageId)).map (·.id)) ≠ []
          then [.chromaBatchDel ((st.chroma.filter (fun c => c.page_id == pageId)).map (·.id))]
          else []) ++
        [.pageDel i] ∧
    ∃ fin, (pageDelete pageId (some i) delFails chromaOk st).2 = .ok fin ∧
      (∀ d : CascDoc, d ∈ fin.couch ↔ d ∈ st.couch ∧ d.id ≠ i ∧
        ∀ r ∈ st.couch.filter (fun d2 => d2.page_id == some pageId),
          delFails r.id = false → d.id ≠ r.id) ∧
      (chromaOk = true → ∀ ch ∈ fin.chroma, ch.page_id ≠ pageId) ∧
      (chromaOk = false → fin.chroma = st.chroma) := by
  have htake : (st.couch.filter (fun d => d.page_id == some pageId)).take 10000 =
      st.couch.filter (fun d => d.page_id == some pageId) :=
    List.take_of_length_le hlim
  unfold pageDelete
  dsimp only
  rw [if_neg hpid, if_neg hpid, htake,
    cascadeEntityLoop_eq delFails (st.couch.filter (fun d => d.page_id == some pageId)) st.couch []]
  rw [if_neg hi, if_neg (by simp [hdel])]
  constructor
  · by_cases hch : chromaOk = true
    · rw [if_pos hch]
      by_cases hids : ((st.chroma.filter (fun c => c.page_id == pageId)).map (·.id)) = []
      · rw [if_pos hids]
        rw [if_neg (by simp [hch, hids])]
        simp
      · rw [if_neg hids]
        rw [if_pos ⟨hch, hids⟩]
        simp
    · rw [if_neg hch, if_neg (by simp [hch])]
      simp
  · refine ⟨_, rfl, ?_, ?_, ?_⟩
    · intro d
      dsimp only
      rw [mem_couchRemove, mem_removeSucc]
      tauto
    · intro hch ch hcm
      rw [if_pos hch] at hcm
      by_cases hids : ((st.chroma.filter (fun c => c.page_id == pageId)).map (·.id)) = []
      · rw [if_pos hids] at hcm
        dsimp only at hcm
        intro hpe
        have hin : ch.id ∈ (st.chroma.filter (fun c => c.page_id == pageId)).map (·.id) :=
          List.mem_map_of_mem _ (List.mem_filter.mpr ⟨hcm, by simp [hpe]⟩)
        rw [hids] at hin
        exact absurd hin (by simp)
      · rw [if_neg hids] at hcm
        dsimp only at hcm
        intro hpe
        have hmem := List.mem_filter.mp hcm
        have hin : ch.id ∈ (st.chroma.filter (fun c => c.page_id == pageId)).map (·.id) :=
          List.mem_map_of_mem _ (List.mem_filter.mpr ⟨hmem.1, by simp [hpe]⟩)
        have h2 : ch.id ∉ (st.chroma.filter (fun c => c.page_id == pageId)).map (·.id) := by
          simpa using hmem.2
        exact absurd hin h2
    · intro hch
      simp [hch]

theorem c10_cache_type_check_witness :
    couchdbGet .group "Decision:5:x" cacheC10 dbC10 =
      .ok (⟨.group, "Decision:5:x", 7⟩, false) ∧
    ((⟨.group, "Decision:5:x", 7⟩ : CachedInst).kind = .group ∧
     (false = true → cacheGet cacheC10 "Decision:5:x" = some ⟨.group, "Decision:5:x", 7⟩) ∧
     (∀ c0, cacheGet cacheC10 "Decision:5:x" = some c0 → c0.kind ≠ .group →
       couchdbGet .group "Decision:5:x" cacheC10 dbC10 = dbFetch .group "Decision:5:x" dbC10)) :=
  ⟨by decide, c10_cache_type_check .group "Decision:5:x" cacheC10 dbC10
    ⟨.group, "Decision:5:x", 7⟩ false (by decide)⟩

theorem c3_page_delete_cascade_witness :
    ((5 : Int) ≠ 0 ∧ "CollectivePage:1:5" ≠ "" ∧ failsC3 "CollectivePage:1:5" = false ∧
     (stC3.couch.filter (fun d => d.page_id == some 5)).length ≤ 10000) ∧
    ((pageDelete 5 (some "CollectivePage:1:5") failsC3 true stC3).1 =
      (stC3.couch.filter (fun d => d.page_id == some 5)).map
          (fun d => .relatedDel d.id (!failsC3 d.id)) ++
        (if (true : Bool) = true ∧
            ((stC3.chroma.filter (fun c => c.page_id == 5)).map (·.id)) ≠ []
          then [.chromaBatchDel ((stC3.chroma.filter (fun c => c.page_id == 5)).map (·.id))]
          else []) ++
        [.pageDel "CollectivePage:1:5"] ∧
     ∃ fin, (pageDelete 5 (some "CollectivePage:1:5") failsC3 true stC3).2 = .ok fin ∧
       (∀ d : CascDoc, d ∈ fin.couch ↔ d ∈ stC3.couch ∧ d.id ≠ "CollectivePage:1:5" ∧
         ∀ r ∈ stC3.couch.filter (fun d2 => d2.page_id == some 5),
           failsC3 r.id = false → d.id ≠ r.id) ∧
       ((true : Bool) = true → ∀ ch ∈ fin.chroma, ch.page_id ≠ 5) ∧
       ((true : Bool) = false → fin.chroma = stC3.chroma)) :=
  ⟨⟨by decide, by decide, by decide, by decide⟩,
   c3_page_delete_cascade 5 "CollectivePage:1:5" failsC3 true stC3
     (by decide) (by decide) (by decide) (by decide)⟩

/-- **C5.**  Counterexample to the claim as stated: `"..."` is a
non-blank line that carries no identity mention and matches no configured
keyword (it contains no word character, so the first-word regex
`\b(\w[\w-]*)\b` finds nothing), yet both scanners leave the active role
state unchanged instead of resetting it — and a mention on a later line
is then still attributed to a role header separated from it by that line,
as the final conjunct shows for the group scanner. -/
theorem c5_counterexample :
    pyStrip "..." ≠ "" ∧ findMentions "..." = [] ∧ firstWordLower "..." = none ∧
    (groupLineStep defaultConfig stC5g "...").attr = "coordination" ∧
    (protLineStep defaultConfig stC5p "...").attr = "moderated_by" ∧
    (groupScan defaultConfig ["Koordination:", "...", "mention://user/zoe"]
      { attr := "", coordination := [], delegate := [], members := [],
        short_names := [] }).coordination = ["zoe"] := by
  refine ⟨by decide, by decide, by decide, by decide, by decide, by decide⟩

/-- **C5 (amended).**  In both role scanners, every non-blank line that
contains a word token whose first word matches no configured keyword and
which carries no `mention://user/` mention resets the active role state
to none (for the protocol scanner: whenever the line is not a terminator
line, which ends scanning altogether); a non-blank line without any word
character is skipped and leaves the role state unchanged. -/
theorem c5_nonkeyword_line_resets (cfg : Config) (st : GroupScan) (st' : ProtScan)
    (line fw : String)
    (hblank : pyStrip line ≠ "")
    (hfw : firstWordLower line = some fw)
    (hgkw : fw ∉ cfg.coordination_person_keywords ++ cfg.delegate_person_keywords ++
      cfg.member_person_keywords ++ cfg.group_shortname_keywords)
    (hpkw : fw ∉ cfg.moderation_person_keywords ++ cfg.protocol_person_keywords ++
      cfg.participant_person_keywords)
    (hm : findMentions line = []) :
    (groupLineStep cfg st line).attr = "" ∧
    (protBreakLine line = false → (protLineStep cfg st' line).attr = "") := by
  simp only [List.mem_append, not_or] at hgkw hpkw
  obtain ⟨⟨⟨hg1, hg2⟩, hg3⟩, hg4⟩ := hgkw
  obtain ⟨⟨hp1, hp2⟩, hp3⟩ := hpkw
  have hg123 : fw ∉ cfg.coordination_person_keywords ++ cfg.delegate_person_keywords ++
      cfg.member_person_keywords := by
    simp only [List.mem_append, not_or]
    exact ⟨⟨hg1, hg2⟩, hg3⟩
  have hp123 : fw ∉ cfg.moderation_person_keywords ++ cfg.protocol_person_keywords ++
      cfg.participant_person_keywords := by
    simp only [List.mem_append, not_or]
    exact ⟨⟨hp1, hp2⟩, hp3⟩
  constructor
  · unfold groupLineStep
    rw [hfw]
    dsimp only
    rw [if_neg hg1, if_neg hg2, if_neg hg3, if_neg hg4]
    unfold groupMentionBlock
    rw [hm]
    rw [if_neg (by simp)]
    rw [if_pos ⟨hblank, hg123⟩]
  · intro _
    unfold protLineStep
    rw [hfw]
    dsimp only
    rw [if_neg hp1, if_neg hp2, if_neg hp3]
    rw [hm]
    rw [if_neg (by simp)]
    rw [if_pos ⟨hblank, hp123⟩]

theorem c5_nonkeyword_line_resets_witness :
    (pyStrip "freier Text hier" ≠ "" ∧
     firstWordLower "freier Text hier" = some "freier" ∧
     "freier" ∉ defaultConfig.coordination_person_keywords ++
       defaultConfig.delegate_person_keywords ++
       defaultConfig.member_person_keywords ++
       defaultConfig.group_shortname_keywords ∧
     "freier" ∉ defaultConfig.moderation_person_keywords ++
       defaultConfig.protocol_person_keywords ++
       defaultConfig.participant_person_keywords ∧
     findMentions "freier Text hier" = []) ∧
    ((groupLineStep defaultConfig stC5g "freier Text hier").attr = "" ∧
     (protBreakLine "freier Text hier" = false →
       (protLineStep defaultConfig stC5p "freier Text hier").attr = "")) :=
  ⟨⟨by decide, by decide, by decide, by decide, by decide⟩,
   c5_nonkeyword_line_resets defaultConfig stC5g stC5p "freier Text hier" "freier"
     (by decide) (by decide) (by decide) (by decide) (by decide)⟩

/-- **C6.**  After every completed `Group.update_from_page`, `members`
contains no identifier present in `coordination` or `delegate`, and
`all_members` is the sorted, duplicate-free union of the three role
lists: membership in `all_members` is exactly membership in one of the
lists, and `all_members` has no duplicates and is sorted. -/
theorem c6_members_disjoint_all_members (cfg : Config) (page : GPage)
    (g g' : Group0) (h : groupUpdateFromPage cfg page g = .ok g') :
    (∀ x ∈ g'.members, x ∉ g'.coordination ∧ x ∉ g'.delegate) ∧
    (∀ x, x ∈ g'.all_members ↔ (x ∈ g'.coordination ∨ x ∈ g'.delegate ∨ x ∈ g'.members)) ∧
    g'.all_members.Nodup ∧ List.Sorted strLe g'.all_members := by
  refine ⟨?_, ?_, pySortedSet_nodup _, pySortedSet_sorted _⟩
  · obtain ⟨content, name0, restNames, -, -, -, hrec⟩ := groupUpdateFromPage_ok h
    rw [hrec]
    intro x hx
    unfold groupUpdateResult at hx
    dsimp only at hx
    rw [mem_pySortedSetDiff] at hx
    exact ⟨hx.2.1, hx.2.2⟩
  · intro x
    unfold Group0.all_members
    rw [mem_pySortedSet]
    simp [List.mem_append, or_assoc]

theorem c6_members_disjoint_all_members_witness :
    groupUpdateFromPage defaultConfig pageW6 gW6 = .ok gW6r ∧
    ((∀ x ∈ gW6r.members, x ∉ gW6r.coordination ∧ x ∉ gW6r.delegate) ∧
     (∀ x, x ∈ gW6r.all_members ↔
       (x ∈ gW6r.coordination ∨ x ∈ gW6r.delegate ∨ x ∈ gW6r.members)) ∧
     gW6r.all_members.Nodup ∧ List.Sorted strLe gW6r.all_members) :=
  ⟨by decide, c6_members_disjoint_all_members defaultConfig pageW6 gW6 gW6r (by decide)⟩

/-- **C7.**  Counterexample to the claim as stated: re-parsing unchanged
page content is not idempotent on every Group field, because
`update_from_page` extends `short_names` without resetting it.  On a page
carrying a short-name line, the second run leaves `short_names` with the
entries duplicated, so the Group field values after the second run differ
from those after the first. -/
theorem c7_counterexample :
    ((groupUpdateFromPage defaultConfig pageC7 gC7).bind
        (groupUpdateFromPage defaultConfig pageC7)).map Group0.short_names ≠
      (groupUpdateFromPage defaultConfig pageC7 gC7).map Group0.short_names := by
  decide

/-- **C7 (amended).**  Re-parsing the same unchanged page content a
second time leaves every Group field except `short_names` (which grows by
the page's short names again) and every parsed Protocol field with the
value it had after the first run. -/
theorem c7_reparse_idempotent (cfg : Config) (page : GPage) (ppage : PPage)
    (rg : Option String) (g g1 g2 : Group0) (p p1 p2 : Protocol0)
    (hg1 : groupUpdateFromPage cfg page g = .ok g1)
    (hg2 : groupUpdateFromPage cfg page g1 = .ok g2)
    (hp1 : protocolUpdateFields cfg ppage rg p = .ok p1)
    (hp2 : protocolUpdateFields cfg ppage rg p1 = .ok p2) :
    (g2.name = g1.name ∧ g2.parent_group = g1.parent_group ∧ g2.emoji = g1.emoji ∧
     g2.coordination = g1.coordination ∧ g2.delegate = g1.delegate ∧
     g2.members = g1.members ∧ g2.page_id = g1.page_id) ∧
    p2 = p1 := by
  constructor
  · obtain ⟨content, name0, restNames, hc, -, hn, hrec1⟩ := groupUpdateFromPage_ok hg1
    obtain ⟨content2, name02, restNames2, hc2, -, hn2, hrec2⟩ := groupUpdateFromPage_ok hg2
    rw [hc] at hc2
    injection hc2 with hceq
    subst hceq
    rw [hn] at hn2
    injection hn2 with hname hrest
    subst hname
    subst hrest
    have hcore := groupScan_core cfg (pySplitlines content) "" [] [] []
      g.short_names g1.short_names
    have h1 : (groupScan cfg (pySplitlines content)
          { attr := "", coordination := [], delegate := [], members := [],
            short_names := g.short_names }).attr =
        (groupScan cfg (pySplitlines content)
          { attr := "", coordination := [], delegate := [], members := [],
            short_names := g1.short_names }).attr ∧
        (groupScan cfg (pySplitlines content)
          { attr := "", coordination := [], delegate := [], members := [],
            short_names := g.short_names }).coordination =
        (groupScan cfg (pySplitlines content)
          { attr := "", coordination := [], delegate := [], members := [],
            short_names := g1.short_names }).coordination ∧
        (groupScan cfg (pySplitlines content)
          { attr := "", coordination := [], delegate := [], members := [],
            short_names := g.short_names }).delegate =
        (groupScan cfg (pySplitlines content)
          { attr := "", coordination := [], delegate := [], members := [],
            short_names := g1.short_names }).delegate ∧
        (groupScan cfg (pySplitlines content)
          { attr := "", coordination := [], delegate := [], members := [],
            short_names := g.short_names }).members =
        (groupScan cfg (pySplitlines content)
          { attr := "", coordination := [], delegate := [], members := [],
            short_names := g1.short_names }).members := by
      simpa [GroupScan.core, Prod.ext_iff] using hcore
    obtain ⟨-, hco, hde, hme⟩ := h1
    rw [hrec1, hrec2]
    unfold groupUpdateResult
    dsimp only
    refine ⟨rfl, ?_, rfl, hco.symm, hde.symm, ?_, ?_⟩
    · cases restNames with
      | nil =>
        dsimp only
        rw [hrec1]
        unfold groupUpdateResult
        rfl
      | cons pn rest => rfl
    · rw [← hco, ← hde, ← hme]
    · rw [hrec1]
      unfold groupUpdateResult
      rfl
  · obtain ⟨content, hc, -, hrec1⟩ := protocolUpdateFields_ok hp1
    obtain ⟨content2, hc2, -, hrec2⟩ := protocolUpdateFields_ok hp2
    rw [hc] at hc2
    injection hc2 with hceq
    subst hceq
    rw [hrec2, hrec1]
    unfold protocolUpdateResult
    dsimp only
    by_cases hv : validDate ppage.title = true
    · cases rg with
      | none => simp [hv]
      | some gid => simp [hv]
    · cases rg with
      | none => simp [hv]
      | some gid => simp [hv]

theorem c7_reparse_idempotent_witness :
    (groupUpdateFromPage defaultConfig pageW7 gW7 = .ok gW7a ∧
     groupUpdateFromPage defaultConfig pageW7 gW7a = .ok gW7b ∧
     protocolUpdateFields defaultConfig ppageW7 (some "Group:21") pW7 = .ok pW7a ∧
     protocolUpdateFields defaultConfig ppageW7 (some "Group:21") pW7a = .ok pW7a) ∧
    ((gW7b.name = gW7a.name ∧ gW7b.parent_group = gW7a.parent_group ∧
      gW7b.emoji = gW7a.emoji ∧ gW7b.coordination = gW7a.coordination ∧
      gW7b.delegate = gW7a.delegate ∧ gW7b.members = gW7a.members ∧
      gW7b.page_id = gW7a.page_id) ∧
     pW7a = pW7a) :=
  ⟨⟨by decide, by decide, by decide, by decide⟩,
   c7_reparse_idempotent defaultConfig pageW7 ppageW7 (some "Group:21")
     gW7 gW7a gW7b pW7 pW7a pW7a (by decide) (by decide) (by decide) (by decide)⟩

end NcBot
